import Mathlib

/-!
# Verification of the PyElastica simulation-orchestration core

Shallow embedding of the symplectic time-stepping engine
(`src/elastica/timestepper/symplectic_steppers.py`) and of the system
registry / contact module (`src/elastica/modules/base_system.py`,
`src/elastica/modules/contact.py`), together with theorems settling the
frozen claims about the natural-language specification.

Conventions:
* Python floats are modelled as exact rationals (`ℚ`); machine indices as `ℤ`.
* Fallible Python code (assertions, raised exceptions) is modelled with
  `Option`/`Except`; an `Except` error carries the state at the moment of the
  raise, since Python exceptions do not roll back prior mutations.
* Collaborators whose source is not part of this repository snapshot
  (memory-block internals, the operator-group container, contact-force
  classes) are modelled from the specification; each such definition says so
  in its doc comment.
-/

set_option autoImplicit false

namespace PyElastica

/-! ## Python primitives -/

/-- Python list slice `l[-2::-1]`: all elements except the last, reversed.
For a one-element (or empty) list the result is empty. -/
def pySliceRevButLast {α : Type} (l : List α) : List α :=
  l.dropLast.reverse

/-- Python list slice `l[::2]` (elements at even positions). -/
def pyEvens {α : Type} : List α → List α
  | [] => []
  | a :: rest =>
    match rest with
    | [] => [a]
    | _ :: rest' => a :: pyEvens rest'

/-- Python list slice `l[1::2]` (elements at odd positions). -/
def pyOdds {α : Type} (l : List α) : List α :=
  pyEvens l.tail

/-- Python's built-in `round` on a rational: round half to even
(banker's rounding), as used in `do_step` for the callback step count. -/
def pyRound (q : ℚ) : ℤ :=
  let f : ℤ := ⌊q⌋
  let r : ℚ := q - (f : ℚ)
  if r < 1 / 2 then f
  else if 1 / 2 < r then f + 1
  else if 2 ∣ f then f else f + 1

/-- Python `list.insert(i, a)`: negative indices count from the end, and the
position is clamped into `[0, len]`. -/
def pyInsert {α : Type} (l : List α) (i : ℤ) (a : α) : List α :=
  let n : ℤ := l.length
  let j : ℤ := if i < 0 then max 0 (n + i) else min i n
  l.take j.toNat ++ a :: l.drop j.toNat

/-- Python `l[i]` for integer `i` (negative indices count from the end),
returning `none` on an `IndexError`. -/
def pyGet {α : Type} (l : List α) (i : ℤ) : Option α :=
  if 0 ≤ i then l.get? i.toNat
  else if (-i).toNat ≤ l.length then l.get? (l.length - (-i).toNat) else none

/-- In-place mutation of the object held at Python index `i` of the live list,
modelled as replacing the list slot (out-of-range mutations do nothing;
the corresponding lookup would already have raised). -/
def pySet {α : Type} (l : List α) (i : ℤ) (a : α) : List α :=
  if 0 ≤ i then l.set i.toNat a
  else l.set (l.length - (-i).toNat) a

/-! ## The symplectic stepping engine

`SymplecticStepperMixin.step_methods` mirrors the declared step and prefactor
lists, checks the `len(steps) == 2*len(prefactors) - 1` assertion, splits the
steps into kinematic (even positions) and dynamic (odd positions) operators
and zips them with the prefactors, padding with `no_operation`. -/

/-- A vectorized memory block as the integrator sees it: some aggregated
core state plus the external force/torque accumulators.

Modelled from the spec: the memory-block internals are an external
collaborator; the spec only requires mutable state plus external
force/torque accumulators that can be reset to zero. -/
structure Block (α : Type) where
  core : α
  extForce : ℚ
  extTorque : ℚ
  deriving DecidableEq, Repr

/-- The positional-argument signature of a stored stepper operator, as
Python call semantics sees it: a bound method accepts a fixed number of
positional arguments (its declared parameters minus the already-bound
`self`), while `no_operation(*args)` is variadic and accepts any number. -/
inductive PyArity where
  | fixed (n : ℕ)
  | varargs
  deriving DecidableEq, Repr

/-- Whether a callable with the given signature accepts a call carrying
`k` positional arguments (a mismatch raises `TypeError`). -/
def PyArity.accepts : PyArity → ℕ → Bool
  | .fixed n, k => n == k
  | .varargs, _ => true

/-- A kinematic/dynamic operator as `get_steps` stores it: its call
signature and the state transformation its body performs on the system it
is handed (the source's step methods mutate `System` in place and return
`None`).  The body is a function of the method's declared parameters
`(System, time, dt)`. -/
structure StepOperator (β : Type) where
  arity : PyArity
  body : β → ℚ → ℚ → β

/-- A prefactor operator as `get_prefactors` stores it: its call signature
and the scalar its body computes from its declared parameter `(dt)`. -/
structure PrefactorOperator where
  arity : PyArity
  body : ℚ → ℚ

/-- A *bound* step method `self._..._step` with declaration
`def _step(self, System, time, dt)`: binding consumed `self`, so it
accepts exactly three positional arguments. -/
def boundStepMethod {β : Type} (f : β → ℚ → ℚ → β) : StepOperator β :=
  { arity := .fixed 3, body := f }

/-- A *bound* prefactor method `self._..._prefactor` with declaration
`def _prefactor(self, dt)`: it accepts exactly one positional argument. -/
def boundPrefactorMethod (f : ℚ → ℚ) : PrefactorOperator :=
  { arity := .fixed 1, body := f }

/-- `no_operation(*args)` in a kinematic/dynamic slot: the call always
succeeds, does nothing to the system, and returns `None`, which the call
statement discards. -/
def noOperationStep {β : Type} : StepOperator β :=
  { arity := .varargs, body := fun b _ _ => b }

/-- `no_operation(*args)` in a prefactor slot: the call always succeeds
and returns `None` (the body field is never consulted for a variadic
operator — there is no scalar to compute). -/
def noOperationPrefactor : PrefactorOperator :=
  { arity := .varargs, body := fun _ => 0 }

/-- One execution stage produced by `step_methods`:
`(prefactor, kinematic_step, dynamic_step)`. -/
structure SymStage (β : Type) where
  prefactor : PrefactorOperator
  kin : StepOperator β
  dyn : StepOperator β

/-- `kin_step(TimeStepper, system, time, dt)` (and likewise `dyn_step`):
`do_step` hands the stored operator **four** positional arguments — the
extra leading `TimeStepper`.  `none` models the `TypeError` raised when
the operator's signature does not accept four arguments; every bound step
method accepts only three, since binding already consumed `self`.  (A
four-parameter *unbound* step function — as the upstream design collected
from the class dict — would bind `self := TimeStepper` and run its body;
`no_operation` accepts the call and leaves the system unchanged.) -/
def callStepOperator {β : Type} (op : StepOperator β) (b : β) (t dt : ℚ) :
    Option β :=
  if op.arity.accepts 4 then some (op.body b t dt) else none

/-- `time += kin_prefactor(TimeStepper, dt)`: **two** positional
arguments.  A bound prefactor method accepts only one, so the call raises
`TypeError` (`none`).  For `no_operation` the call itself succeeds but
returns `None`, and `time += None` raises `TypeError` as well. -/
def callPrefactorAndAdd (op : PrefactorOperator) (t dt : ℚ) : Option ℚ :=
  if op.arity.accepts 2 then
    match op.arity with
    | .varargs => none
    | .fixed _ => some (t + op.body dt)
  else none

/-- The mirroring in `step_methods`: `l + l[-2::-1]`. -/
def mirrorOps {α : Type} (l : List α) : List α :=
  l ++ pySliceRevButLast l

/-- `SymplecticStepperMixin.step_methods`: mirror steps and prefactors,
check the assertion, separate kinematic/dynamic steps and zip with
`no_operation` as fill value.  `none` models the `AssertionError`. -/
def stepMethods {β : Type} (steps : List (StepOperator β))
    (prefactors : List PrefactorOperator) : Option (List (SymStage β)) :=
  let s := mirrorOps steps
  let p := mirrorOps prefactors
  if (s.length : ℤ) = 2 * (p.length : ℤ) - 1 then
    let kins := pyEvens s
    let dyns := pyOdds s
    let n := max p.length (max kins.length dyns.length)
    some ((List.range n).map fun i =>
      { prefactor := p.getD i noOperationPrefactor
        kin := kins.getD i noOperationStep
        dyn := dyns.getD i noOperationStep })
  else none

/-! ### A single point mass as the stepped system

Modelled from the spec: the kinematic operator
(`overload_operator_kinematic_numba`) advances positions by
`prefactor * velocity`, and the dynamic operator advances velocities by the
dynamic rates (acceleration) scaled by its prefactor.  For a free point mass
the acceleration field is constant. -/

structure PointMass where
  pos : ℚ
  vel : ℚ
  acc : ℚ
  deriving DecidableEq, Repr

/-- `PositionVerlet._first_prefactor`: `0.5 * dt`. -/
def pvFirstPrefactor (dt : ℚ) : ℚ := (1 / 2) * dt

/-- `PositionVerlet._first_kinematic_step` on a point-mass block. -/
def pvFirstKinematicStep (b : Block PointMass) (_time dt : ℚ) :
    Block PointMass :=
  { b with core :=
      { b.core with pos := b.core.pos + pvFirstPrefactor dt * b.core.vel } }

/-- `PositionVerlet._first_dynamic_step` on a point-mass block: rates advance
by the dynamic rates over the full `dt`. -/
def pvFirstDynamicStep (b : Block PointMass) (_time dt : ℚ) :
    Block PointMass :=
  { b with core := { b.core with vel := b.core.vel + dt * b.core.acc } }

/-- `PositionVerlet.get_steps`: the two *bound* methods
`self._first_kinematic_step`, `self._first_dynamic_step`. -/
def pvGetSteps : List (StepOperator (Block PointMass)) :=
  [boundStepMethod pvFirstKinematicStep, boundStepMethod pvFirstDynamicStep]

/-- `PositionVerlet.get_prefactors`: the bound method
`self._first_prefactor`. -/
def pvGetPrefactors : List PrefactorOperator :=
  [boundPrefactorMethod pvFirstPrefactor]

/-- The `steps_and_prefactors` computed when constructing `PositionVerlet`
(`none` = the constructor raises `AssertionError`). -/
def positionVerletStepsAndPrefactors : Option (List (SymStage (Block PointMass))) :=
  stepMethods pvGetSteps pvGetPrefactors

/-! ### PEFRL coefficients (exact rationals, as written in the source) -/

namespace PEFRL

def xi : ℚ := 0.1786178958448091e0
def lam : ℚ := -0.2123418310626054e0
def chi : ℚ := -0.6626458266981849e-1

/-- `0.5 * (1.0 - 2.0 * λ)`. -/
def lambdaDashCoeff : ℚ := (1 / 2) * (1 - 2 * lam)

/-- `1.0 - 2.0 * (ξ + χ)`. -/
def xiChiDashCoeff : ℚ := 1 - 2 * (xi + chi)

def firstKinematicPrefactor (dt : ℚ) : ℚ := xi * dt
def secondKinematicPrefactor (dt : ℚ) : ℚ := chi * dt
def thirdKinematicPrefactor (dt : ℚ) : ℚ := xiChiDashCoeff * dt

def firstKinematicStep (b : Block PointMass) (_time dt : ℚ) : Block PointMass :=
  { b with core :=
      { b.core with pos := b.core.pos + firstKinematicPrefactor dt * b.core.vel } }

def firstDynamicStep (b : Block PointMass) (_time dt : ℚ) : Block PointMass :=
  { b with core :=
      { b.core with vel := b.core.vel + lambdaDashCoeff * dt * b.core.acc } }

def secondKinematicStep (b : Block PointMass) (_time dt : ℚ) : Block PointMass :=
  { b with core :=
      { b.core with pos := b.core.pos + secondKinematicPrefactor dt * b.core.vel } }

def secondDynamicStep (b : Block PointMass) (_time dt : ℚ) : Block PointMass :=
  { b with core :=
      { b.core with vel := b.core.vel + lam * dt * b.core.acc } }

def thirdKinematicStep (b : Block PointMass) (_time dt : ℚ) : Block PointMass :=
  { b with core :=
      { b.core with pos := b.core.pos + thirdKinematicPrefactor dt * b.core.vel } }

/-- `PEFRL.get_steps`: five *bound* step methods. -/
def getSteps : List (StepOperator (Block PointMass)) :=
  [boundStepMethod firstKinematicStep, boundStepMethod firstDynamicStep,
   boundStepMethod secondKinematicStep, boundStepMethod secondDynamicStep,
   boundStepMethod thirdKinematicStep]

/-- `PEFRL.get_prefactors`: three *bound* prefactor methods. -/
def getPrefactors : List PrefactorOperator :=
  [boundPrefactorMethod firstKinematicPrefactor,
   boundPrefactorMethod secondKinematicPrefactor,
   boundPrefactorMethod thirdKinematicPrefactor]

end PEFRL

/-- The `steps_and_prefactors` computed when constructing `PEFRL`. -/
def pefrlStepsAndPrefactors : Option (List (SymStage (Block PointMass))) :=
  stepMethods PEFRL.getSteps PEFRL.getPrefactors

/-- The PEFRL stage list (construction succeeds, see the theorems below). -/
def pefrlStages : List (SymStage (Block PointMass)) :=
  pefrlStepsAndPrefactors.getD []

/-! ### `SymplecticStepperMixin.do_step`

The integrator walks `steps_and_prefactors[:-1]`, then peels the final
`(prefactor, kinematic_step)` pair, calls the callbacks and zeroes the
external force/torque accumulators of every memory block.

The registry-level feature-group calls (`constrain_values`,
`constrain_rates`, `synchronize`, `apply_callbacks`) and the per-block
internal-force recomputation are opaque collaborators here; `do_step`
fixes the order in which they run.

Every operator invocation goes through the Python call primitives above:
`do_step` hands the stored operators an extra leading `TimeStepper`
argument (`kin_step(TimeStepper, system, time, dt)`,
`time += kin_prefactor(TimeStepper, dt)`), while `get_steps` and
`get_prefactors` return *bound* methods that no longer accept that
argument — such an invocation raises `TypeError`, which aborts the step;
`none` threads the escaping exception. -/

/-- The opaque operations `do_step` invokes on the registry and its blocks. -/
structure BlockOps (α : Type) where
  constrainValues : List (Block α) → ℚ → List (Block α)
  constrainRates : List (Block α) → ℚ → List (Block α)
  synchronize : List (Block α) → ℚ → List (Block α)
  applyCallbacks : List (Block α) → ℚ → ℤ → List (Block α)
  updateInternalForcesAndTorques : Block α → ℚ → Block α

/-- `reset_external_forces_and_torques`.

Modelled from the spec: the memory-block method resets the accumulated
external forces and torques to zero and touches nothing else. -/
def resetExternalForcesAndTorques {α : Type} (b : Block α) (_time : ℚ) :
    Block α :=
  { b with extForce := 0, extTorque := 0 }

/-- The result of one `do_step`: the final blocks and the returned time. -/
abbrev StepResult (α : Type) := List (Block α) × ℚ

/-- `for system in SystemCollection._memory_blocks:
step(TimeStepper, system, time, dt)` — one four-argument call per block;
the first `TypeError` (`none`) aborts the loop. -/
def callStepOnAll {α : Type} (op : StepOperator (Block α))
    (blocks : List (Block α)) (t dt : ℚ) : Option (List (Block α)) :=
  match blocks with
  | [] => some []
  | b :: rest =>
    match callStepOperator op b t dt with
    | none => none
    | some b' =>
      match callStepOnAll op rest t dt with
      | none => none
      | some rest' => some (b' :: rest')

/-- Body of `for kin_prefactor, kin_step, dyn_step in
steps_and_prefactors[:-1]`; an exception (`none`) raised anywhere aborts
the whole step. -/
def doStepLoop {α : Type} (ops : BlockOps α) (dt : ℚ)
    (acc : Option (StepResult α)) (st : SymStage (Block α)) :
    Option (StepResult α) :=
  match acc with
  | none => none
  | some (blocks, t) =>
    match callStepOnAll st.kin blocks t dt with
    | none => none
    | some b1 =>
      match callPrefactorAndAdd st.prefactor t dt with
      | none => none
      | some t1 =>
        let b2 := ops.constrainValues b1 t1
        let b3 := b2.map (fun b => ops.updateInternalForcesAndTorques b t1)
        let b4 := ops.synchronize b3 t1
        match callStepOnAll st.dyn b4 t1 dt with
        | none => none
        | some b5 => some (ops.constrainRates b5 t1, t1)

/-- The peeled tail of `do_step`: last kinematic step and prefactor,
`constrain_values`, `apply_callbacks(time, round(time/dt))`, and the reset
of every block's external forces and torques. -/
def doStepFinish {α : Type} (ops : BlockOps α) (dt : ℚ)
    (lastStage : SymStage (Block α)) (acc : Option (StepResult α)) :
    Option (StepResult α) :=
  match acc with
  | none => none
  | some (blocks, t) =>
    match callStepOnAll lastStage.kin blocks t dt with
    | none => none
    | some bK =>
      match callPrefactorAndAdd lastStage.prefactor t dt with
      | none => none
      | some t2 =>
        let bC := ops.constrainValues bK t2
        let bCb := ops.applyCallbacks bC t2 (pyRound (t2 / dt))
        some (bCb.map (fun b => resetExternalForcesAndTorques b t2), t2)

/-- `SymplecticStepperMixin.do_step` (also `step`): `none` models an
escaping exception — the `IndexError` on an empty stage list, or the
`TypeError` raised by an operator invocation. -/
def doStep {α : Type} (ops : BlockOps α) (stages : List (SymStage (Block α)))
    (blocks : List (Block α)) (time dt : ℚ) : Option (StepResult α) :=
  match stages.getLast? with
  | none => none
  | some lastStage =>
    doStepFinish ops dt lastStage
      (stages.dropLast.foldl (doStepLoop ops dt) (some (blocks, time)))

/-! ### The `TypeError` path of every real `step` -/

lemma foldl_doStepLoop_none {α : Type} (ops : BlockOps α) (dt : ℚ)
    (l : List (SymStage (Block α))) :
    l.foldl (doStepLoop ops dt) none = none := by
  induction l with
  | nil => rfl
  | cons st rest ih => rw [List.foldl_cons]; exact ih

/-- A stage whose kinematic operator and prefactor are bound methods fails
at its first operator invocation: with blocks present the four-argument
kinematic call raises `TypeError`; without blocks the two-argument
prefactor call does. -/
lemma doStepLoop_bound_none {α : Type} (ops : BlockOps α) (dt : ℚ)
    (acc : StepResult α) (st : SymStage (Block α))
    (hk : st.kin.arity = .fixed 3) (hp : st.prefactor.arity = .fixed 1) :
    doStepLoop ops dt (some acc) st = none := by
  obtain ⟨blocks, t⟩ := acc
  cases blocks with
  | nil =>
    simp [doStepLoop, callStepOnAll, callPrefactorAndAdd, hp, PyArity.accepts]
  | cons b rest =>
    simp [doStepLoop, callStepOnAll, callStepOperator, hk, PyArity.accepts]

/-- The first execution stage of `PEFRL` holds bound methods
(`(System, time, dt)` and `(dt)` signatures). -/
lemma pefrl_first_stage_bound :
    (pefrlStages.dropLast.headD
      ⟨noOperationPrefactor, noOperationStep, noOperationStep⟩).kin.arity =
        PyArity.fixed 3 ∧
    (pefrlStages.dropLast.headD
      ⟨noOperationPrefactor, noOperationStep, noOperationStep⟩).prefactor.arity =
        PyArity.fixed 1 :=
  ⟨rfl, rfl⟩

/-- Every `PEFRL` `step` raises `TypeError` in its first stage, for every
registry, block list, time and dt. -/
lemma doStep_pefrl_none (ops : BlockOps PointMass)
    (blocks : List (Block PointMass)) (time dt : ℚ) :
    doStep ops pefrlStages blocks time dt = none := by
  rcases eg : pefrlStages.getLast? with _ | lastStage
  · rw [List.getLast?_eq_none_iff] at eg
    have h5 : pefrlStages.length = 5 := rfl
    rw [eg] at h5
    exact absurd h5 (by decide)
  · rcases e : pefrlStages.dropLast with _ | ⟨s1, rest⟩
    · have h4 : pefrlStages.dropLast.length = 4 := rfl
      rw [e] at h4
      exact absurd h4 (by decide)
    · have hk : s1.kin.arity = PyArity.fixed 3 := by
        have h0 := pefrl_first_stage_bound.1
        rw [e, List.headD_cons] at h0
        exact h0
      have hp : s1.prefactor.arity = PyArity.fixed 1 := by
        have h0 := pefrl_first_stage_bound.2
        rw [e, List.headD_cons] at h0
        exact h0
      simp only [doStep, eg, e, List.foldl_cons,
        doStepLoop_bound_none ops dt (blocks, time) s1 hk hp,
        foldl_doStepLoop_none]
      rfl

/-- The PEFRL stage prefactor bodies applied to a concrete `dt`. -/
lemma pefrlStages_prefactors (dt : ℚ) :
    pefrlStages.map (fun s => s.prefactor.body dt) =
      [PEFRL.xi * dt, PEFRL.chi * dt, PEFRL.xiChiDashCoeff * dt,
       PEFRL.chi * dt, PEFRL.xi * dt] := rfl

/-! ## Claim theorems for the stepping engine -/

/-- **C1** refuted: no `step()` ever performs the claimed stage sequence.
`PositionVerlet` cannot even be constructed (its `step_methods` assertion
fails, see C2), and for `PEFRL` — the only constructible variant — every
`step()` raises `TypeError` at its very first operator invocation:
`do_step` passes the extra leading `TimeStepper` argument to the *bound*
methods stored by `get_steps`/`get_prefactors`, so no kinematic update,
constraint, synchronization, callback or accumulator reset is ever
reached and no advanced time is returned. -/
theorem step_never_performs_claimed_sequence :
    positionVerletStepsAndPrefactors = none ∧
    pefrlStepsAndPrefactors.isSome = true ∧
    ∀ (ops : BlockOps PointMass) (blocks : List (Block PointMass))
      (time dt : ℚ), doStep ops pefrlStages blocks time dt = none :=
  ⟨rfl, rfl, fun ops blocks time dt => doStep_pefrl_none ops blocks time dt⟩

/-- **C2**: refuted on `PositionVerlet`.  Mirroring its declared lists gives
3 steps but only 1 prefactor (the Python slice `[-2::-1]` of a one-element
list is empty), so the assertion `len(steps) == 2*len(prefactors) - 1`
compares 3 with 1 and fails: `PositionVerlet()` raises `AssertionError`.
`PEFRL`'s construction does succeed. -/
theorem position_verlet_construction_assertion_fails :
    (mirrorOps pvGetSteps).length = 3 ∧
    (mirrorOps pvGetPrefactors).length = 1 ∧
    ¬ ((3 : ℤ) = 2 * (1 : ℤ) - 1) ∧
    positionVerletStepsAndPrefactors = none ∧
    pefrlStepsAndPrefactors.isSome = true := by
  exact ⟨rfl, rfl, by decide, rfl, rfl⟩

/-- **C3**: refuted on the code.  `PositionVerlet` never produces a stage
list (its construction raises `AssertionError`), so no single `step` of it
exists at all, let alone one advancing the position by `velocity * dt`. -/
theorem position_verlet_single_step_unavailable :
    positionVerletStepsAndPrefactors = none ∧
    ∀ (ops : BlockOps PointMass) (blocks : List (Block PointMass))
      (time dt : ℚ),
      doStep ops (positionVerletStepsAndPrefactors.getD []) blocks time dt
        = none := by
  exact ⟨rfl, fun _ _ _ _ => rfl⟩

/-- **C7** refuted on its conclusion: the PEFRL coefficients do have the
spec's stated values, the derived prefactors are `0.5*(1-2λ)` and
`1-2*(ξ+χ)`, and the kinematic prefactor bodies of the five mirrored
stages sum to exactly `dt` — but `step()` does not advance time by `dt`
(or at all): each `time += kin_prefactor(TimeStepper, dt)` hands the bound
one-parameter prefactor method two arguments, so every `step()` raises
`TypeError` and no time is ever accumulated. -/
theorem pefrl_prefactor_sum_is_dt_but_step_raises (dt : ℚ) :
    PEFRL.xi = 0.1786178958448091 ∧
    PEFRL.lam = -0.2123418310626054 ∧
    PEFRL.chi = -0.06626458266981849 ∧
    PEFRL.lambdaDashCoeff = 0.5 * (1 - 2 * PEFRL.lam) ∧
    PEFRL.xiChiDashCoeff = 1 - 2 * (PEFRL.xi + PEFRL.chi) ∧
    (pefrlStages.map (fun s => s.prefactor.body dt)).sum = dt ∧
    ∀ (ops : BlockOps PointMass) (blocks : List (Block PointMass))
      (time : ℚ), doStep ops pefrlStages blocks time dt = none := by
  refine ⟨by norm_num [PEFRL.xi], by norm_num [PEFRL.lam],
    by norm_num [PEFRL.chi], by norm_num [PEFRL.lambdaDashCoeff], rfl, ?_,
    fun ops blocks time => doStep_pefrl_none ops blocks time dt⟩
  rw [pefrlStages_prefactors]
  simp only [List.sum_cons, List.sum_nil, PEFRL.xiChiDashCoeff]
  ring

/-! ## The system registry (`BaseSystemCollection`) and the contact module

Entities are identified the way CPython identifies objects: by an identity
tag (`uid`, standing for the object's address), since rod-like objects do
not override `__eq__`.  Class membership for `issubclass`/`isinstance`
checks is modelled by tag lists. -/

/-- A simulated entity (rod, rigid body, surface, or appended memory
block).  `classes` are the tags of its class and ancestor classes,
`requisites` its `REQUISITE_MODULES` tags, and `force` its external force
accumulator (abstract; only used to observe which entity a contact operator
touches). -/
structure Entity where
  uid : ℕ
  classes : List ℕ
  requisites : List ℕ
  force : ℚ
  deriving DecidableEq, Repr

/-- A constructed contact-algorithm object.

Modelled from the spec: `elastica/contact_forces.py` is not part of this
snapshot; the spec's contact-algorithm contract exposes a pairwise
compatibility check (`_check_systems_validity`) and
`apply_contact(system_one, system_two)`, which mutates the two entities it
is handed. -/
structure ContactInstance where
  check : Entity → Entity → Bool
  applyTo : Entity → Entity → Entity × Entity

/-- A contact-algorithm class together with its construction arguments as
bound by `.using(...)`.

Modelled from the spec: `derivesNoContact` is the `issubclass(cls,
NoContact)` test performed by `using`, and `construct` is the call
`cls(*args, **kwargs)` performed at finalize (`none` models the
`TypeError`/`IndexError` of a bad constructor call). -/
structure ContactCls where
  derivesNoContact : Bool
  construct : Option ContactInstance

/-- `_Contact`: a pending contact declaration.  `contactCls = none` models
`self._contact_cls = None` before `.using(...)` is called. -/
structure ContactDecl where
  uid : ℕ
  firstSysIdx : ℤ
  secondSysIdx : ℤ
  contactCls : Option ContactCls

/-- The synchronize operator materialized for a contact at finalize: the
`functools.partial` closure captures only the two resolved indices, the
constructed algorithm instance, and (by aliasing) the registry's live
system list. -/
structure ContactOp where
  firstSysIdx : ℤ
  secondSysIdx : ℤ
  inst : ContactInstance

/-- `OperatorGroupFIFO`, the ordered synchronize feature group.

Modelled from the spec: `elastica/modules/operator_group.py` is not part of
this snapshot.  Per the spec it is an append-only, order-preserving
operator collection whose entries may be tagged by an owner identity:
`append_id` registers an owner's (initially empty) slot at declaration
time, `add_operators` later fills that owner's slot (declaration-time
position, finalize-time content), iteration yields all operators in
insertion order, and `is_last(owner)` holds iff the owner's slot is the
final one at call time. -/
structure OperatorGroupFIFO where
  entries : List (ℕ × List ContactOp)

namespace OperatorGroupFIFO

def appendId (g : OperatorGroupFIFO) (uid : ℕ) : OperatorGroupFIFO :=
  ⟨g.entries ++ [(uid, [])]⟩

def addOperators (g : OperatorGroupFIFO) (uid : ℕ) (ops : List ContactOp) :
    OperatorGroupFIFO :=
  ⟨g.entries.map (fun en => if en.1 = uid then (en.1, ops) else en)⟩

def operators (g : OperatorGroupFIFO) : List ContactOp :=
  (g.entries.map Prod.snd).flatten

def isLast (g : OperatorGroupFIFO) (uid : ℕ) : Bool :=
  g.entries.getLast?.map Prod.fst == some uid

end OperatorGroupFIFO

/-- The deferred finalize operators.  The only one contributed by the
modules in this snapshot is `Contact._finalize_contact`. -/
inductive FinalizeOp where
  | contactFinalize
  deriving DecidableEq, Repr

/-- The Python exceptions raised by the registry/contact core. -/
inductive ElErr where
  | typeError
  | requisiteError
  | assertionError
  | valueError
  | runtimeError
  | attributeError
  | validationError
  | indexError
  deriving DecidableEq, Repr

/-- The state of a composed simulator (`BaseSystemCollection` plus the
`Contact` mixin).  `finalizeGroup = none` models
`self._feature_group_finalize = None` and `contacts = none` models
`del self._contacts`, both performed during finalize. -/
structure SimState where
  systems : List Entity
  memoryBlocks : List Entity
  allowedSysTypes : List ℕ
  modules : List ℕ
  syncGroup : OperatorGroupFIFO
  constrainValuesGroup : List ℕ
  constrainRatesGroup : List ℕ
  callbackGroup : List ℕ
  finalizeGroup : Option (List FinalizeOp)
  contacts : Option (List ContactDecl)
  finalizeFlag : Bool
  nextUid : ℕ
  warningLog : List String

/-- `BaseSystemCollection.__init__` composed with `Contact.__init__`
(which registers `_finalize_contact` in the finalize feature group). -/
def initState (allowed modules : List ℕ) : SimState where
  systems := []
  memoryBlocks := []
  allowedSysTypes := allowed
  modules := modules
  syncGroup := ⟨[]⟩
  constrainValuesGroup := []
  constrainRatesGroup := []
  callbackGroup := []
  finalizeGroup := some [.contactFinalize]
  contacts := some []
  finalizeFlag := false
  nextUid := 0
  warningLog := []

/-- `BaseSystemCollection._check_type`: `issubclass(sys.__class__,
self.allowed_sys_types)` and then the `REQUISITE_MODULES` check.
Returns the raised error, or `none` when the entity passes. -/
def checkType (st : SimState) (e : Entity) : Option ElErr :=
  if ¬ e.classes.any (fun c => st.allowedSysTypes.contains c) then
    some .typeError
  else if ¬ e.requisites.all (fun m => st.modules.contains m) then
    some .requisiteError
  else none

/-- `BaseSystemCollection.insert` — note: the source checks only the type,
never the finalize flag. -/
def insertSystem (st : SimState) (i : ℤ) (e : Entity) :
    Except (ElErr × SimState) SimState :=
  match checkType st e with
  | some err => .error (err, st)
  | none => .ok { st with systems := pyInsert st.systems i e }

/-- `MutableSequence.append`, i.e. `insert(len(self), system)`. -/
def appendSystem (st : SimState) (e : Entity) :
    Except (ElErr × SimState) SimState :=
  insertSystem st st.systems.length e

/-- `BaseSystemCollection.__setitem__`: type check, then Python list item
assignment (negative indices count from the end; out of range raises
`IndexError`).  Again no finalize-flag check. -/
def setItemSystem (st : SimState) (i : ℤ) (e : Entity) :
    Except (ElErr × SimState) SimState :=
  match checkType st e with
  | some err => .error (err, st)
  | none =>
    if -(st.systems.length : ℤ) ≤ i ∧ i < (st.systems.length : ℤ) then
      .ok { st with systems := pySet st.systems i e }
    else .error (.indexError, st)

/-- `BaseSystemCollection._get_sys_idx_if_valid`: an integer argument is
range-checked (`assert -n <= i < n`) and returned unchanged — negative
indices are not normalized; an entity argument is type-checked and looked
up by identity (`list.index`, default `__eq__`). -/
def getSysIdxIfValid (st : SimState) (v : ℤ ⊕ Entity) :
    Except (ElErr × SimState) ℤ :=
  match v with
  | .inl i =>
    if -(st.systems.length : ℤ) ≤ i ∧ i < (st.systems.length : ℤ) then .ok i
    else .error (.assertionError, st)
  | .inr e =>
    match checkType st e with
    | some err => .error (err, st)
    | none =>
      match st.systems.findIdx? (fun s => s.uid == e.uid) with
      | some k => .ok (k : ℤ)
      | none => .error (.valueError, st)

/-- `Contact.detect_contact_between`: resolve both arguments to indices,
create a `_Contact`, cache it in `self._contacts` (raising
`AttributeError` if that attribute was deleted by finalize) and register
its placeholder slot in the synchronize group.  Returns the new
declaration's identity. -/
def detectContactBetween (st : SimState) (a b : ℤ ⊕ Entity) :
    Except (ElErr × SimState) (SimState × ℕ) :=
  match getSysIdxIfValid st a with
  | .error err => .error err
  | .ok i =>
    match getSysIdxIfValid st b with
    | .error err => .error err
    | .ok j =>
      match st.contacts with
      | none => .error (.attributeError, st)
      | some cs =>
        let uid := st.nextUid
        .ok ({ st with
                contacts := some (cs ++ [⟨uid, i, j, none⟩]),
                syncGroup := st.syncGroup.appendId uid,
                nextUid := uid + 1 }, uid)

/-- `_Contact.using`: assert `issubclass(contact_cls, NoContact)`, then
store the class and its construction arguments on the declaration
(mutating the object aliased inside `self._contacts`). -/
def usingContact (st : SimState) (uid : ℕ) (cls : ContactCls) :
    Except (ElErr × SimState) SimState :=
  if cls.derivesNoContact then
    .ok { st with
          contacts := st.contacts.map (fun cs => cs.map (fun c =>
            if c.uid = uid then { c with contactCls := some cls } else c)) }
  else .error (.assertionError, st)

/-! ### Python `isinstance` on the stored contact class

`Contact.warnings` tests `isinstance(contact._contact_cls, NoContact)`.
`_contact_cls` holds the *class object* stored by `using` (or `None`).  A
class object is an instance of its metaclass (`type`), never of
`NoContact`, so this test can only succeed on an *instance* of a
`NoContact` subclass — which is never what `_contact_cls` holds. -/

/-- The Python values that can reach the `isinstance` test. -/
inductive PyVal where
  | classVal (cls : ContactCls)
  | instVal (inst : ContactInstance)
  | noneVal

/-- `isinstance(v, NoContact)`: true exactly on constructed objects of
`NoContact` subclasses (`using` guarantees every stored class is one);
false on class objects and on `None`. -/
def isinstanceNoContact : PyVal → Bool
  | .instVal _ => true
  | .classVal _ => false
  | .noneVal => false

/-- The value of `contact._contact_cls` as a Python value. -/
def contactClsVal (c : ContactDecl) : PyVal :=
  match c.contactCls with
  | some cls => .classVal cls
  | none => .noneVal

/-- `Contact.warnings`: warn only when the contact's slot is not last in
the synchronize group and `isinstance(contact._contact_cls, NoContact)`
holds. -/
def contactWarnings (g : OperatorGroupFIFO) (c : ContactDecl) : List String :=
  if ¬ g.isLast c.uid then
    if isinstanceNoContact (contactClsVal c) then
      ["Contact features should be instantiated lastly."]
    else []
  else []

/-- The body of the `for contact in self._contacts` loop of
`_finalize_contact`: `instantiate` (raising `RuntimeError` without a bound
class and `TypeError` on a failing constructor call), the pairwise validity
check against the two currently indexed systems, the `functools.partial`
closure over the two indices, `add_operators` into the contact's
placeholder slot, and the `warnings` call. -/
def finalizeContactStep (st : SimState) (c : ContactDecl) :
    Except (ElErr × SimState) SimState :=
  match c.contactCls with
  | none => .error (.runtimeError, st)
  | some cls =>
    match cls.construct with
    | none => .error (.typeError, st)
    | some inst =>
      match pyGet st.systems c.firstSysIdx, pyGet st.systems c.secondSysIdx with
      | some e1, some e2 =>
        if inst.check e1 e2 then
          let g := st.syncGroup.addOperators c.uid
            [⟨c.firstSysIdx, c.secondSysIdx, inst⟩]
          .ok { st with syncGroup := g,
                        warningLog := st.warningLog ++ contactWarnings g c }
        else .error (.validationError, st)
      | _, _ => .error (.indexError, st)

def finalizeContactLoop (st : SimState) :
    List ContactDecl → Except (ElErr × SimState) SimState
  | [] => .ok st
  | c :: rest =>
    match finalizeContactStep st c with
    | .error err => .error err
    | .ok st' => finalizeContactLoop st' rest

/-- `Contact._finalize_contact`: loop over the cached declarations, then
`self._contacts = []; del self._contacts`. -/
def finalizeContact (st : SimState) : Except (ElErr × SimState) SimState :=
  match st.contacts with
  | none => .error (.attributeError, st)
  | some cs =>
    match finalizeContactLoop st cs with
    | .error err => .error err
    | .ok st' => .ok { st' with contacts := none }

def runFinalizeOp (st : SimState) : FinalizeOp → Except (ElErr × SimState) SimState
  | .contactFinalize => finalizeContact st

def runFinalizeOps (st : SimState) :
    List FinalizeOp → Except (ElErr × SimState) SimState
  | [] => .ok st
  | op :: rest =>
    match runFinalizeOp st op with
    | .error err => .error err
    | .ok st' => runFinalizeOps st' rest

/-- Append each freshly constructed memory block to the registry via
`self.append(block)` (each append runs `_check_type`). -/
def appendBlocks (st : SimState) :
    List Entity → Except (ElErr × SimState) SimState
  | [] => .ok st
  | b :: rest =>
    match appendSystem st b with
    | .error err => .error err
    | .ok st' => appendBlocks st' rest

/-- `BaseSystemCollection.finalize`.  The aggregation collaborator
(`construct_memory_block_structures`) is not part of this snapshot and is
passed in as a function; per the spec it produces one or more vectorized
blocks from the entity sequence.  Order of effects, as in the source:
the double-finalize assertion; `self._memory_blocks = aggregate(...)`;
append every block as a pseudo-entity; run every finalize operator in
insertion order; clear and discard the finalize group; set the flag. -/
def finalizeSim (aggregate : List Entity → List Entity) (st : SimState) :
    Except (ElErr × SimState) SimState :=
  if st.finalizeFlag then .error (.assertionError, st)
  else
    match appendBlocks { st with memoryBlocks := aggregate st.systems }
        (aggregate st.systems) with
    | .error err => .error err
    | .ok st2 =>
      match st2.finalizeGroup with
      | none => .error (.typeError, st2)
      | some fops =>
        match runFinalizeOps st2 fops with
        | .error err => .error err
        | .ok st3 => .ok { st3 with finalizeGroup := none, finalizeFlag := true }

/-- One materialized contact operator applied at `synchronize` time: it
indexes the live system list *at call time* with the two captured indices
and hands the current occupants to the algorithm.  `none` models the
`IndexError` Python would raise on a stale out-of-range index. -/
def applyContactOp (op : ContactOp) (systems : List Entity) :
    Option (List Entity) :=
  match pyGet systems op.firstSysIdx, pyGet systems op.secondSysIdx with
  | some e1, some e2 =>
    let p := op.inst.applyTo e1 e2
    some (pySet (pySet systems op.firstSysIdx p.1) op.secondSysIdx p.2)
  | _, _ => none

def runSyncOps : List ContactOp → List Entity → Option (List Entity)
  | [], sys => some sys
  | op :: rest, sys =>
    match applyContactOp op sys with
    | none => none
    | some sys' => runSyncOps rest sys'

/-- `BaseSystemCollection.synchronize(time)`: run every synchronize
operator, in insertion order, on the registry (time is ignored by contact
operators). -/
def runSynchronize (st : SimState) (_time : ℚ) : Option SimState :=
  (runSyncOps st.syncGroup.operators st.systems).map
    (fun sys => { st with systems := sys })

/-! ### Helper lemmas about the registry -/

/-- Extract the state carried by a successful result. -/
def okStateD (x : Except (ElErr × SimState) SimState) (d : SimState) :
    SimState :=
  match x with
  | .ok s => s
  | .error _ => d

/-- Extract the state at the moment an error was raised. -/
def errStateD (x : Except (ElErr × SimState) SimState) (d : SimState) :
    SimState :=
  match x with
  | .ok _ => d
  | .error (_, s) => s

/-- Extract the raised error kind, if any. -/
def errKind (x : Except (ElErr × SimState) SimState) : Option ElErr :=
  match x with
  | .ok _ => none
  | .error (err, _) => some err

lemma contactWarnings_eq_nil (g : OperatorGroupFIFO) (c : ContactDecl) :
    contactWarnings g c = [] := by
  unfold contactWarnings
  rcases hc : c.contactCls with _ | cls <;>
    simp [contactClsVal, hc, isinstanceNoContact]

lemma checkType_congr (st st' : SimState) (e : Entity)
    (h1 : st'.allowedSysTypes = st.allowedSysTypes)
    (h2 : st'.modules = st.modules) :
    checkType st' e = checkType st e := by
  unfold checkType; rw [h1, h2]

lemma pyInsert_at_length {α : Type} (l : List α) (a : α) :
    pyInsert l (l.length : ℤ) a = l ++ [a] := by
  unfold pyInsert
  have hnn : ¬ ((l.length : ℤ) < 0) := by omega
  simp [hnn]

lemma appendSystem_ok (st : SimState) (e : Entity)
    (h : checkType st e = none) :
    appendSystem st e = .ok { st with systems := st.systems ++ [e] } := by
  unfold appendSystem insertSystem
  rw [h, pyInsert_at_length]

lemma appendBlocks_ok (l : List Entity) :
    ∀ (st : SimState), (∀ b ∈ l, checkType st b = none) →
      appendBlocks st l = .ok { st with systems := st.systems ++ l } := by
  induction l with
  | nil => intro st _; simp [appendBlocks]
  | cons b rest ih =>
    intro st hchk
    have h1 := appendSystem_ok st b (hchk b (by simp))
    have h2 := ih { st with systems := st.systems ++ [b] } (fun b' hb' => by
      rw [checkType_congr st { st with systems := st.systems ++ [b] } b' rfl rfl]
      exact hchk b' (List.mem_cons_of_mem b hb'))
    simp only [appendBlocks, h1, h2]
    simp

lemma finalizeContact_ok_contacts (st st' : SimState)
    (h : finalizeContact st = .ok st') : st'.contacts = none := by
  unfold finalizeContact at h
  split at h
  · exact absurd h (by simp)
  · split at h
    · exact absurd h (by simp)
    · simp only [Except.ok.injEq] at h
      rw [← h]

/-- Fields of the registry untouched by a single `append`. -/
lemma appendSystem_preserves (st st' : SimState) (e : Entity)
    (h : appendSystem st e = .ok st') :
    st'.finalizeGroup = st.finalizeGroup ∧ st'.contacts = st.contacts ∧
    st'.finalizeFlag = st.finalizeFlag := by
  unfold appendSystem insertSystem at h
  split at h
  · exact absurd h (by simp)
  · simp only [Except.ok.injEq] at h
    rw [← h]
    exact ⟨rfl, rfl, rfl⟩

/-- Fields of the registry untouched by appending blocks. -/
lemma appendBlocks_preserves (l : List Entity) :
    ∀ (st st' : SimState), appendBlocks st l = .ok st' →
      st'.finalizeGroup = st.finalizeGroup ∧ st'.contacts = st.contacts ∧
      st'.finalizeFlag = st.finalizeFlag := by
  induction l with
  | nil =>
    intro st st' h
    simp only [appendBlocks, Except.ok.injEq] at h
    rw [h]
    exact ⟨rfl, rfl, rfl⟩
  | cons b rest ih =>
    intro st st' h
    unfold appendBlocks at h
    split at h
    · exact absurd h (by simp)
    · rename_i st2 heq
      obtain ⟨h1, h2, h3⟩ := appendSystem_preserves st st2 b heq
      obtain ⟨g1, g2, g3⟩ := ih st2 st' h
      exact ⟨g1.trans h1, g2.trans h2, g3.trans h3⟩

/-- A successful `finalize` on a registry whose finalize group holds the
contact-module entry sets the flag, discards the finalize group and the
contacts attribute. -/
lemma finalizeSim_ok_fields (agg : List Entity → List Entity)
    (st st' : SimState) (h : finalizeSim agg st = .ok st') :
    st'.finalizeFlag = true ∧ st'.finalizeGroup = none := by
  unfold finalizeSim at h
  split at h
  · exact absurd h (by simp)
  · split at h
    · exact absurd h (by simp)
    · split at h
      · exact absurd h (by simp)
      · split at h
        · exact absurd h (by simp)
        · simp only [Except.ok.injEq] at h
          rw [← h]
          exact ⟨rfl, rfl⟩

/-- With the contact module present, a successful finalize also deletes the
`_contacts` attribute. -/
lemma finalizeSim_ok_contacts_none (agg : List Entity → List Entity)
    (st st' : SimState) (h : finalizeSim agg st = .ok st')
    (hfg : st.finalizeGroup = some [.contactFinalize]) :
    st'.contacts = none := by
  unfold finalizeSim at h
  split at h
  · exact absurd h (by simp)
  · split at h
    · exact absurd h (by simp)
    · rename_i st2 e1
      have hp := appendBlocks_preserves (agg st.systems) _ _ e1
      have hfg2 : st2.finalizeGroup = some [.contactFinalize] := by
        rw [hp.1]; exact hfg
      split at h
      · rename_i hnone
        rw [hfg2] at hnone
        exact absurd hnone (by simp)
      · rename_i fops hsome
        have hf : fops = [FinalizeOp.contactFinalize] := by
          have := hfg2.symm.trans hsome
          exact ((Option.some.injEq _ _).mp this).symm
        subst hf
        split at h
        · exact absurd h (by simp)
        · rename_i st3 e2
          simp only [runFinalizeOps, runFinalizeOp] at e2
          split at e2
          · exact absurd e2 (by simp)
          · rename_i st4 heq2
            simp only [runFinalizeOps, Except.ok.injEq] at e2
            simp only [Except.ok.injEq] at h
            rw [← h]
            have h4 : st4.contacts = none :=
              finalizeContact_ok_contacts st2 st4 heq2
            rw [e2] at h4
            exact h4

/-! ## Claim theorems for the registry and contact module -/

/-- **C9**: `_get_sys_idx_if_valid` returns an in-range integer argument
unchanged — negative in-range indices included, which are never normalized
to `n + i` — and rejects any integer outside `[-n, n)` with the range
assertion. -/
theorem get_sys_idx_returns_int_unchanged (st : SimState) (i : ℤ) :
    (-(st.systems.length : ℤ) ≤ i ∧ i < (st.systems.length : ℤ) →
      getSysIdxIfValid st (.inl i) = .ok i) ∧
    (i < -(st.systems.length : ℤ) ∨ (st.systems.length : ℤ) ≤ i →
      getSysIdxIfValid st (.inl i) = .error (.assertionError, st)) := by
  constructor
  · intro h
    simp [getSysIdxIfValid, h]
  · intro h
    have hno : ¬ (-(st.systems.length : ℤ) ≤ i ∧ i < (st.systems.length : ℤ)) := by
      rcases h with h | h <;> omega
    simp [getSysIdxIfValid, hno]

/-- A registry with two registered systems, witnessing index resolution. -/
def c9State : SimState :=
  { initState [0] [] with
    systems := [⟨40, [0], [], 0⟩, ⟨41, [0], [], 0⟩] }

theorem get_sys_idx_returns_int_unchanged_witness :
    getSysIdxIfValid c9State (.inl (-1)) = .ok (-1) ∧
    getSysIdxIfValid c9State (.inl 2) = .error (.assertionError, c9State) :=
  ⟨(get_sys_idx_returns_int_unchanged c9State (-1)).1 (by decide),
   (get_sys_idx_returns_int_unchanged c9State 2).2 (by decide)⟩

/-- **C8** refuted: `Contact.warnings` never emits its warning for any
group and any declaration, because `isinstance(contact._contact_cls,
NoContact)` tests the *class object* stored by `using` (or `None`) and a
class object is never an instance of `NoContact` — the check that was
evidently meant is `issubclass`.  So even a last-only contact algorithm
that is not last in the synchronize group produces no warning. -/
theorem contact_warning_never_emitted (g : OperatorGroupFIFO)
    (c : ContactDecl) : contactWarnings g c = [] :=
  contactWarnings_eq_nil g c

/-- **C6**: once `finalize()` has succeeded, a second `finalize()` raises
the double-finalize assertion as its first action, leaving the registry
exactly in its post-first-finalize state. -/
theorem finalize_twice_raises (agg agg2 : List Entity → List Entity)
    (st st' : SimState) (h : finalizeSim agg st = .ok st') :
    finalizeSim agg2 st' = .error (.assertionError, st') := by
  have hflag : st'.finalizeFlag = true :=
    (finalizeSim_ok_fields agg st st' h).1
  unfold finalizeSim
  rw [hflag]
  simp

/-- An aggregation collaborator producing no blocks (empty registry). -/
def emptyAgg : List Entity → List Entity := fun _ => []

/-- The registry state after a first successful finalize of a fresh
simulator. -/
def c6Final : SimState :=
  okStateD (finalizeSim emptyAgg (initState [] [])) (initState [] [])

theorem finalize_twice_raises_witness :
    finalizeSim emptyAgg c6Final = .error (.assertionError, c6Final) :=
  finalize_twice_raises emptyAgg emptyAgg (initState [] []) c6Final (by rfl)

/-! ### Concrete entities used in the C4/C5/C10 scenarios -/

/-- Tag of the allowed rod-like base class (`RodBase`). -/
def rodClassTag : ℕ := 0

def allowedTags : List ℕ := [rodClassTag]

def entA : Entity := ⟨10, [rodClassTag], [], 0⟩

def entNew : Entity := ⟨11, [rodClassTag], [], 0⟩

/-- The pseudo-entity produced by the aggregation collaborator. -/
def blockEnt : Entity := ⟨99, [rodClassTag], [], 0⟩

/-- An aggregation collaborator producing one memory block. -/
def oneBlockAgg : List Entity → List Entity := fun _ => [blockEnt]

/-- A registry holding one rod, before finalize. -/
def c4Start : SimState := { initState allowedTags [] with systems := [entA] }

/-- The same registry after a successful finalize. -/
def c4Final : SimState := okStateD (finalizeSim oneBlockAgg c4Start) c4Start

/-- **C4** counterexample: on the concrete finalized registry `c4Final`,
`insert` of a valid-typed entity is *accepted* and grows the entity
sequence — no finalize-flag check exists in `insert`/`append`/
`__setitem__` — refuting "every attempt to add an entity ... fails". -/
theorem insert_after_finalize_accepted :
    c4Final.finalizeFlag = true ∧
    insertSystem c4Final 0 entNew =
      .ok { c4Final with systems := pyInsert c4Final.systems 0 entNew } ∧
    (okStateD (insertSystem c4Final 0 entNew) c4Final).systems.length =
      c4Final.systems.length + 1 :=
  ⟨rfl, rfl, rfl⟩

/-- **C4** (amended): after a successful finalize of a contact-module
registry, `detect_contact_between` does fail (with `AttributeError`, since
the contacts cache was deleted), but adding entities is still accepted:
`insert`, `append` and index assignment run only the type check and never
consult the finalize flag, so the entity sequence remains mutable. -/
theorem post_finalize_contact_rejected_but_insertion_accepted
    (agg : List Entity → List Entity) (st st' : SimState) (e : Entity)
    (i a b : ℤ)
    (h : finalizeSim agg st = .ok st')
    (hfg : st.finalizeGroup = some [.contactFinalize])
    (he : checkType st' e = none)
    (ha : -(st'.systems.length : ℤ) ≤ a ∧ a < (st'.systems.length : ℤ))
    (hb : -(st'.systems.length : ℤ) ≤ b ∧ b < (st'.systems.length : ℤ)) :
    insertSystem st' i e =
      .ok { st' with systems := pyInsert st'.systems i e } ∧
    appendSystem st' e = .ok { st' with systems := st'.systems ++ [e] } ∧
    setItemSystem st' a e =
      .ok { st' with systems := pySet st'.systems a e } ∧
    detectContactBetween st' (.inl a) (.inl b) =
      .error (.attributeError, st') := by
  have hcn : st'.contacts = none :=
    finalizeSim_ok_contacts_none agg st st' h hfg
  refine ⟨?_, appendSystem_ok st' e he, ?_, ?_⟩
  · unfold insertSystem
    rw [he]
  · unfold setItemSystem
    rw [he, if_pos ha]
  · have g1 : getSysIdxIfValid st' (.inl a) = .ok a := by
      simp [getSysIdxIfValid, ha]
    have g2 : getSysIdxIfValid st' (.inl b) = .ok b := by
      simp [getSysIdxIfValid, hb]
    unfold detectContactBetween
    rw [g1, g2]
    simp [hcn]

theorem post_finalize_contact_rejected_but_insertion_accepted_witness :
    insertSystem c4Final 2 entNew =
      .ok { c4Final with systems := pyInsert c4Final.systems 2 entNew } ∧
    appendSystem c4Final entNew =
      .ok { c4Final with systems := c4Final.systems ++ [entNew] } ∧
    setItemSystem c4Final 0 entNew =
      .ok { c4Final with systems := pySet c4Final.systems 0 entNew } ∧
    detectContactBetween c4Final (.inl 0) (.inl 1) =
      .error (.attributeError, c4Final) :=
  post_finalize_contact_rejected_but_insertion_accepted oneBlockAgg c4Start
    c4Final entNew 2 0 1 (by rfl) rfl rfl (by decide) (by decide)

/-- A rod appearing in the missing-`using` scenario. -/
def c5Ent : Entity := ⟨20, [rodClassTag], [], 0⟩

/-- A registry holding one rod and one contact declared via
`detect_contact_between` whose `.using(...)` was never called
(`contactCls = none`, placeholder slot already registered). -/
def c5Start : SimState :=
  { initState allowedTags [] with
    systems := [c5Ent], contacts := some [⟨0, 0, 0, none⟩],
    syncGroup := ⟨[(0, [])]⟩, nextUid := 1 }

/-- The registry state carried by the error that finalize raises on
`c5Start`. -/
def c5ErrState : SimState := errStateD (finalizeSim oneBlockAgg c5Start) c5Start

/-- **C5** counterexample: finalize on the concrete registry whose single
contact never got `.using(...)` does raise the construction error
(`RuntimeError`), but the registry has already been mutated when the error
escapes: the memory block was constructed and appended to the entity
sequence — refuting "the whole finalize call has no effect". -/
theorem finalize_missing_using_mutates_registry :
    errKind (finalizeSim oneBlockAgg c5Start) = some .runtimeError ∧
    c5Start.systems.length = 1 ∧
    c5ErrState.systems.length = 2 ∧
    c5ErrState.memoryBlocks.length = 1 :=
  ⟨rfl, rfl, rfl, rfl⟩

/-- **C5** (amended): if the first pending contact reaches finalize without
`.using(...)`, `finalize()` raises the construction error (`RuntimeError`)
and the finalize flag, the finalize group and the pending declarations are
still untouched — but finalize is *partial*: the memory blocks have already
been constructed, recorded, and appended to the entity sequence when the
error escapes. -/
theorem finalize_missing_using_raises_after_block_append
    (agg : List Entity → List Entity) (st : SimState) (c : ContactDecl)
    (rest : List ContactDecl)
    (hflag : st.finalizeFlag = false)
    (hfg : st.finalizeGroup = some [.contactFinalize])
    (hc : st.contacts = some (c :: rest))
    (hcls : c.contactCls = none)
    (hblocks : ∀ b ∈ agg st.systems, checkType st b = none) :
    finalizeSim agg st =
      .error (.runtimeError,
        { st with memoryBlocks := agg st.systems,
                  systems := st.systems ++ agg st.systems }) := by
  have hb : appendBlocks { st with memoryBlocks := agg st.systems }
      (agg st.systems) =
      .ok { st with memoryBlocks := agg st.systems,
                    systems := st.systems ++ agg st.systems } := by
    rw [appendBlocks_ok (agg st.systems) _ (fun b hbm => by
      rw [checkType_congr st { st with memoryBlocks := agg st.systems } b rfl rfl]
      exact hblocks b hbm)]
  unfold finalizeSim
  rw [hb]
  simp only [hflag, Bool.false_eq_true, if_false, hfg, hc, hcls,
    runFinalizeOps, runFinalizeOp, finalizeContact, finalizeContactLoop,
    finalizeContactStep]

theorem finalize_missing_using_raises_after_block_append_witness :
    finalizeSim oneBlockAgg c5Start =
      .error (.runtimeError,
        { c5Start with memoryBlocks := oneBlockAgg c5Start.systems,
                       systems := c5Start.systems ++ oneBlockAgg c5Start.systems }) :=
  finalize_missing_using_raises_after_block_append oneBlockAgg c5Start
    ⟨0, 0, 0, none⟩ [] rfl rfl rfl rfl (by
      intro bl hbl
      simp only [oneBlockAgg, List.mem_singleton] at hbl
      subst hbl
      rfl)

/-- **C10**: at finalize, the synchronize operator materialized for a
contact captures only the two resolved integer indices and the constructed
algorithm instance (the `functools.partial` closure additionally aliases
the registry's live `_systems` list, which is only ever mutated in place);
at every invocation it indexes the *current* system list with those two
indices, so the contact force is applied to whichever entities occupy the
two positions when the operator runs — here an arbitrary call-time list `S`
with occupants `f1`/`f2`, regardless of the declaration-time occupants
`e1`/`e2`. -/
theorem contact_operator_uses_call_time_occupants
    (st : SimState) (c : ContactDecl) (cls : ContactCls)
    (inst : ContactInstance) (e1 e2 : Entity) (S : List Entity)
    (f1 f2 : Entity) (time : ℚ)
    (hc : st.contacts = some [c])
    (hcls : c.contactCls = some cls)
    (hinst : cls.construct = some inst)
    (h1 : pyGet st.systems c.firstSysIdx = some e1)
    (h2 : pyGet st.systems c.secondSysIdx = some e2)
    (hchk : inst.check e1 e2 = true)
    (hg : st.syncGroup = ⟨[(c.uid, [])]⟩)
    (h1' : pyGet S c.firstSysIdx = some f1)
    (h2' : pyGet S c.secondSysIdx = some f2) :
    finalizeContact st =
      .ok { st with
        syncGroup := ⟨[(c.uid, [⟨c.firstSysIdx, c.secondSysIdx, inst⟩])]⟩,
        contacts := none } ∧
    applyContactOp ⟨c.firstSysIdx, c.secondSysIdx, inst⟩ S =
      some (pySet (pySet S c.firstSysIdx (inst.applyTo f1 f2).1)
        c.secondSysIdx (inst.applyTo f1 f2).2) ∧
    runSynchronize { st with
        syncGroup := ⟨[(c.uid, [⟨c.firstSysIdx, c.secondSysIdx, inst⟩])]⟩,
        contacts := none, systems := S } time =
      some { st with
        syncGroup := ⟨[(c.uid, [⟨c.firstSysIdx, c.secondSysIdx, inst⟩])]⟩,
        contacts := none,
        systems := pySet (pySet S c.firstSysIdx (inst.applyTo f1 f2).1)
          c.secondSysIdx (inst.applyTo f1 f2).2 } := by
  have happly : applyContactOp ⟨c.firstSysIdx, c.secondSysIdx, inst⟩ S =
      some (pySet (pySet S c.firstSysIdx (inst.applyTo f1 f2).1)
        c.secondSysIdx (inst.applyTo f1 f2).2) := by
    unfold applyContactOp
    rw [h1', h2']
  refine ⟨?_, happly, ?_⟩
  · have hstep : finalizeContactStep st c =
        .ok { st with
          syncGroup := ⟨[(c.uid, [⟨c.firstSysIdx, c.secondSysIdx, inst⟩])]⟩ } := by
      unfold finalizeContactStep
      simp only [hcls, hinst, h1, h2, hchk, hg,
        OperatorGroupFIFO.addOperators, List.map_cons, List.map_nil,
        contactWarnings_eq_nil, List.append_nil, if_true]
    unfold finalizeContact
    simp only [hc, finalizeContactLoop, hstep]
  · unfold runSynchronize
    simp only [OperatorGroupFIFO.operators, List.map_cons, List.map_nil,
      List.flatten, runSyncOps, happly]
    simp [runSyncOps]

/-- A contact algorithm adding one unit of force to both endpoints. -/
def addForceInst : ContactInstance where
  check := fun _ _ => true
  applyTo := fun a b =>
    ({ a with force := a.force + 1 }, { b with force := b.force + 1 })

def c10Cls : ContactCls := ⟨true, some addForceInst⟩

def c10A : Entity := ⟨30, [rodClassTag], [], 0⟩

def c10B : Entity := ⟨31, [rodClassTag], [], 0⟩

/-- An entity put into position 0 *after* the contact was declared. -/
def c10New : Entity := ⟨32, [rodClassTag], [], 7⟩

/-- A registry with two rods and one fully bound contact between indices
0 and 1, as left by `detect_contact_between` + `.using(...)`. -/
def c10Start : SimState :=
  { initState allowedTags [] with
    systems := [c10A, c10B], contacts := some [⟨0, 0, 1, some c10Cls⟩],
    syncGroup := ⟨[(0, [])]⟩, nextUid := 1 }

theorem contact_operator_uses_call_time_occupants_witness :
    finalizeContact c10Start =
      .ok { c10Start with
        syncGroup := ⟨[(0, [⟨0, 1, addForceInst⟩])]⟩, contacts := none } ∧
    applyContactOp ⟨0, 1, addForceInst⟩ [c10New, c10B] =
      some (pySet (pySet [c10New, c10B] 0
          (addForceInst.applyTo c10New c10B).1) 1
        (addForceInst.applyTo c10New c10B).2) ∧
    runSynchronize { c10Start with
        syncGroup := ⟨[(0, [⟨0, 1, addForceInst⟩])]⟩, contacts := none,
        systems := [c10New, c10B] } 4 =
      some { c10Start with
        syncGroup := ⟨[(0, [⟨0, 1, addForceInst⟩])]⟩, contacts := none,
        systems := pySet (pySet [c10New, c10B] 0
            (addForceInst.applyTo c10New c10B).1) 1
          (addForceInst.applyTo c10New c10B).2 } :=
  contact_operator_uses_call_time_occupants c10Start ⟨0, 0, 1, some c10Cls⟩
    c10Cls addForceInst c10A c10B [c10New, c10B] c10New c10B 4
    rfl rfl rfl rfl rfl rfl rfl rfl rfl

end PyElastica
